import Mathlib

/-!
Verification development for the Field-to-Profile Matching Engine of the
Autonomous Government Scheme Eligibility and Action Agent repository.

The repository ships a browser extension (content and background scripts)
that scrapes form fields and asks a local backend service to propose
values.  The backend matching engine itself (the deterministic scorer of
the README, implemented by the Python service main.py / web_interface.py)
is not part of the supplied sources, so it is modelled here from the
specification; the JavaScript fill steps of the two content scripts are
embedded from the sources directly.
-/

/-! ## String utilities (substring containment and normalization) -/

/-- Boolean check that the first character list is a prefix of the second. -/
def prefCheck : List Char → List Char → Bool
  | [], _ => true
  | _ :: _, [] => false
  | p :: ps, c :: cs => (p = c) && prefCheck ps cs

/-- Boolean check that the first character list occurs contiguously inside
the second. -/
def infCheck (pat : List Char) : List Char → Bool
  | [] => prefCheck pat []
  | c :: cs => prefCheck pat (c :: cs) || infCheck pat cs

/-- Substring containment on strings: pat occurs contiguously in s. -/
def strContains (s pat : String) : Bool :=
  infCheck pat.data s.data

/-- Modelled from the spec: normalization maps every character to lower
case and every non-alphanumeric character to a space (section 4.1). -/
def normChar (c : Char) : Char :=
  if c.isAlphanum then c.toLower else ' '

/-- Split a character list into maximal space-free words, carrying the
current (reversed) word as an accumulator. -/
def wordsAux : List Char → List Char → List (List Char)
  | [], acc => if acc = [] then [] else [acc.reverse]
  | c :: cs, acc =>
    if c = ' ' then
      (if acc = [] then wordsAux cs [] else acc.reverse :: wordsAux cs [])
    else wordsAux cs (c :: acc)

/-- Modelled from the spec: lower-case, trim, and collapse runs of
non-alphanumeric characters to single spaces (section 4.1); implemented by
mapping characters and re-joining the resulting words with single
spaces. -/
def normalizeText (s : String) : String :=
  String.intercalate (" ") ((wordsAux (s.data.map normChar) []).map String.mk)

/-! ## Data model (FieldDescriptor, ProfileAttribute, MatchDecision,
MappingResult), modelled from the spec: the backend engine holding these
types is absent from the sources. -/

/-- Modelled from the spec: one scraped form control, with the wire-format
attributes id, name, label, placeholder, type (sections 3 and 6).  Missing
attributes default to the empty string. -/
structure FieldDescriptor where
  id : String
  name : String
  label : String
  placeholder : String
  fieldType : String
deriving DecidableEq, Repr

/-- Modelled from the spec: the output mapping key of a field is its DOM
id when present, else its name (section 3). -/
def fieldIdentifier (f : FieldDescriptor) : String :=
  if f.id = "" then f.name else f.id

/-- Modelled from the spec: one signature-table entry, a canonical
attribute key with an ordered list of (keyword, weight) signature pairs
(section 3). -/
structure ProfileAttribute where
  attributeKey : String
  signatures : List (String × ℚ)
deriving DecidableEq, Repr

/-- Modelled from the spec: the per-field output record (section 3). -/
structure MatchDecision where
  fieldIdentifier : String
  matchedAttribute : Option String
  confidence : ℚ
  reason : String
deriving DecidableEq, Repr

/-- Modelled from the spec: the aggregate result returned to the caller
(section 3). -/
structure MappingResult where
  filledFields : List (String × String)
  reasoningLogs : List String
deriving DecidableEq, Repr

/-- Modelled from the spec: the only hard failure of the engine is a
configuration error for an empty or uninitialized signature table
(section 7). -/
inductive MatchError where
  | configurationError
deriving DecidableEq, Repr

/-- Association-list lookup, used for the profile mapping and for the
JSON filled_fields object consumed by the content scripts. -/
def alistLookup (m : List (String × String)) (key : String) : Option String :=
  match m with
  | [] => none
  | (k, v) :: rest => if k = key then some v else alistLookup rest key

/-- Decidable equality for the result of the engine operation. -/
def exceptDecEq {α β : Type} [DecidableEq α] [DecidableEq β] :
    DecidableEq (Except α β) := fun a b => by
  cases a with
  | ok x =>
    cases b with
    | ok y =>
      exact if h : x = y then isTrue (by rw [h]) else isFalse (fun hc => h (Except.ok.inj hc))
    | error y => exact isFalse (fun hc => Except.noConfusion hc)
  | error x =>
    cases b with
    | ok y => exact isFalse (fun hc => Except.noConfusion hc)
    | error y =>
      exact if h : x = y then isTrue (by rw [h]) else isFalse (fun hc => h (Except.error.inj hc))

instance : DecidableEq (Except MatchError MappingResult) := exceptDecEq

/-! ## Scoring, modelled from the spec (section 4.1) -/

/-- The confidence value 0.5 of the acceptance threshold, stored in lowest
terms so that comparisons against it evaluate by kernel reduction. -/
def ratHalf : ℚ := Rat.mk' 1 2 (by decide) (by norm_num)

/-- The confidence value 0.8 of the synonym tier, stored in lowest terms. -/
def ratSynonym : ℚ := Rat.mk' 4 5 (by decide) (by norm_num)

/-- The confidence value 0.6 of the short-keyword tier, stored in lowest
terms. -/
def ratShort : ℚ := Rat.mk' 3 5 (by decide) (by norm_num)

/-- Modelled from the spec: the weight of a synonym keyword under the
three-tier scheme: 0.8 for a long keyword (at least 7 characters), 0.6
for a short one (sections 4.1 and 8). -/
def keywordWeight (kw : String) : ℚ :=
  if 7 ≤ kw.length then ratSynonym else ratShort

/-- Modelled from the spec: table construction for one attribute; exact
aliases are stored at weight 1.0 and synonym keywords at their
length-derived tier weight (sections 3 and 9). -/
def mkAttribute (key : String) (aliases synonyms : List String) : ProfileAttribute :=
  ⟨key, aliases.map (fun al => (al, (1 : ℚ))) ++
        synonyms.map (fun kw => (kw, keywordWeight kw))⟩

/-- Modelled from the spec: the normalized search text of a field is the
normalization of the concatenation, in priority order, of label, name,
placeholder, identifier (section 4.1). -/
def normSearchText (f : FieldDescriptor) : String :=
  normalizeText (f.label ++ (" ") ++ f.name ++ (" ") ++ f.placeholder ++ (" ") ++ fieldIdentifier f)

/-- Modelled from the spec: a weight-1.0 signature (exact alias) matches
when the normalized identifier or name equals its keyword; any other
signature matches when its keyword occurs in the normalized search text
(section 4.1). -/
def sigMatches (f : FieldDescriptor) (sig : String × ℚ) : Bool :=
  if sig.2 = 1 then
    decide (normalizeText (fieldIdentifier f) = sig.1 ∨ normalizeText f.name = sig.1)
  else strContains (normSearchText f) sig.1

/-- Modelled from the spec: the exact match rule on the canonical key
itself; the normalized identifier or name equals the attribute key
(section 4.1). -/
def exactKeyMatch (f : FieldDescriptor) (a : ProfileAttribute) : Bool :=
  decide (normalizeText (fieldIdentifier f) = a.attributeKey ∨ normalizeText f.name = a.attributeKey)

/-- Fold computing the maximum weight among the matching signatures,
starting from a base score. -/
def scoreFold (f : FieldDescriptor) (base : ℚ) : List (String × ℚ) → ℚ
  | [] => base
  | sig :: rest => scoreFold f (if sigMatches f sig then max base sig.2 else base) rest

/-- Modelled from the spec: the candidate score of an attribute for a
field is the maximum weight among matching signatures, with base 1.0 when
the exact match rule on the canonical key fires and 0 otherwise
(section 4.1). -/
def attrScore (f : FieldDescriptor) (a : ProfileAttribute) : ℚ :=
  scoreFold f (if exactKeyMatch f a then 1 else 0) a.signatures

/-- Modelled from the spec: the winning candidate of a field is the
attribute achieving the maximum score, ties broken toward the attribute
appearing earliest in the table order (the fixed priority ordering of
section 4.1). -/
def bestCandidate (table : List ProfileAttribute) (f : FieldDescriptor) :
    Option (ProfileAttribute × ℚ) :=
  match table with
  | [] => none
  | a :: rest =>
    match bestCandidate rest f with
    | none => some (a, attrScore f a)
    | some (b, s) =>
      if attrScore f a < s then some (b, s) else some (a, attrScore f a)

/-- The score of the winning candidate, 0 for an empty table. -/
def bestScore (table : List ProfileAttribute) (f : FieldDescriptor) : ℚ :=
  match bestCandidate table f with
  | none => 0
  | some (_, s) => s

/-- Modelled from the spec: the acceptance threshold; the comparison with
0.5 is non-strict (sections 4.1 and 8). -/
def clearsThreshold (s : ℚ) : Bool :=
  decide (ratHalf ≤ s)

/-- Modelled from the spec: the name of the matching rule tier for a
given confidence (section 4.2). -/
def tierName (s : ℚ) : String :=
  if s = 1 then "exact" else if s = ratSynonym then "synonym" else "short"

/-- Rendering of the fixed confidence tiers for reason strings. -/
def confStr (s : ℚ) : String :=
  if s = 1 then "1.0"
  else if s = ratSynonym then "0.8"
  else if s = ratShort then "0.6"
  else if s = 0 then "0.0"
  else "out-of-tier"

/-! ## Per-field decision and the engine loop, modelled from the spec -/

/-- Modelled from the spec: the per-field decision (sections 4.1, 4.2
and 7).  A field lacking a usable identifier, or whose best candidate
falls below the threshold, or whose matched attribute has no profile
value, is recorded as a skip with a reason string and contributes no
filled entry; an accepted field contributes the pair of its identifier
and the profile value of the matched attribute. -/
def decideField (table : List ProfileAttribute) (profile : List (String × String))
    (f : FieldDescriptor) : MatchDecision × Option (String × String) :=
  if fieldIdentifier f = "" then
    (⟨fieldIdentifier f, none, 0, "Skipped a field with no usable identifier"⟩, none)
  else
    match bestCandidate table f with
    | none =>
      (⟨fieldIdentifier f, none, 0,
        "Skipped " ++ fieldIdentifier f ++ ": no attributes configured"⟩, none)
    | some (a, s) =>
      if clearsThreshold s = true then
        match alistLookup profile a.attributeKey with
        | some v =>
          (⟨fieldIdentifier f, some a.attributeKey, s,
            "Matched " ++ fieldIdentifier f ++ " with " ++ a.attributeKey ++ " via " ++
              tierName s ++ " rule (confidence " ++ confStr s ++ ")"⟩,
           some (fieldIdentifier f, v))
        | none =>
          (⟨fieldIdentifier f, none, s,
            "Matched attribute " ++ a.attributeKey ++ " for " ++ fieldIdentifier f ++
              " but no profile value available"⟩, none)
      else
        (⟨fieldIdentifier f, none, s,
          "Skipped " ++ fieldIdentifier f ++ ": no confident match (best score " ++
            confStr s ++ ")"⟩, none)

/-- The per-field decision records, one per input field, in input order. -/
def decisions (table : List ProfileAttribute) (profile : List (String × String))
    (fields : List FieldDescriptor) : List MatchDecision :=
  fields.map (fun f => (decideField table profile f).1)

/-- Modelled from the spec: the read-only state of the engine, the
signature table and the profile mapping (sections 5 and 9). -/
structure EngineState where
  table : List ProfileAttribute
  profile : List (String × String)
deriving DecidableEq, Repr

/-- Modelled from the spec: one engine step processes one field, appends
exactly one reason string and at most one filled entry, and returns the
state it was given (no per-field mutation, section 4.2 and section 3
invariants). -/
def engineStep (st : EngineState) (acc : MappingResult) (f : FieldDescriptor) :
    EngineState × MappingResult :=
  let d := decideField st.table st.profile f
  (st, ⟨acc.filledFields ++ d.2.toList, acc.reasoningLogs ++ [d.1.reason]⟩)

/-- Modelled from the spec: the engine loop over the supplied fields,
threading the engine state explicitly. -/
def engineRun (st : EngineState) : List FieldDescriptor → MappingResult →
    EngineState × MappingResult
  | [], acc => (st, acc)
  | f :: rest, acc => engineRun (engineStep st acc f).1 rest (engineStep st acc f).2

/-- Modelled from the spec: the public operation of the engine
(section 4.1).  It fails with a configuration error exactly when the
signature table is empty, and otherwise runs the engine loop over the
fields starting from an empty result. -/
def matchFields (table : List ProfileAttribute) (fields : List FieldDescriptor)
    (profile : List (String × String)) : Except MatchError MappingResult :=
  if table = [] then Except.error MatchError.configurationError
  else Except.ok (engineRun ⟨table, profile⟩ fields ⟨[], []⟩).2

/-! ## Content-script fill steps, embedded from the sources -/

/-- JavaScript logical-or on optional string values, as used by the
expression mapping[input.id] || mapping[input.name] in
src/extension/chrome_extension/content.js: the left operand is kept when
it is a truthy (non-empty) string, otherwise the right operand is the
result; none models undefined. -/
def jsOr (a b : Option String) : Option String :=
  match a with
  | some v => if v = "" then b else some v
  | none => b

/-- The value the current content script (handleAutoFill in
src/extension/chrome_extension/content.js, step 3) assigns to an input:
mapping[input.id] || mapping[input.name], assigned when the result is
neither undefined nor null. -/
def handleAutoFillValue (mapping : List (String × String)) (id name : String) :
    Option String :=
  jsOr (alistLookup mapping id) (alistLookup mapping name)

/-- The value the earlier content-script variant (handleAutoFill in
src/unnamed/part_000, step 3) assigns to an input: the single key is
input.id || input.name, and the value is assigned only when
mapping[key] is truthy (a non-empty string). -/
def oldHandleAutoFillValue (mapping : List (String × String)) (id name : String) :
    Option String :=
  match alistLookup mapping (if id = "" then name else id) with
  | some v => if v = "" then none else some v
  | none => none

/-! ## Concrete inputs for scenarios, counterexamples and witnesses -/

/-- A one-attribute table for simple concrete runs. -/
def phoneTable : List ProfileAttribute :=
  [⟨"phone", [(("mobile"), ratSynonym)]⟩]

/-- A concrete profile carrying a phone value. -/
def phoneProfile : List (String × String) :=
  [(("phone"), ("9876543210"))]

/-- The scenario field of the spec: contact_num with placeholder Mobile
(section 8). -/
def scenField : FieldDescriptor :=
  ⟨"contact_num", "", "", "Mobile", "text"⟩

/-- A field with neither id nor name, hence no usable identifier. -/
def noIdField : FieldDescriptor :=
  ⟨"", "", "Favorite Color", "", "text"⟩

/-- A two-attribute table in which the email attribute precedes the
phone attribute. -/
def emailPhoneTable : List ProfileAttribute :=
  [⟨"email", []⟩, ⟨"phone", []⟩]

/-- A profile carrying both an email and a phone value. -/
def emailPhoneProfile : List (String × String) :=
  [(("email"), ("a@b.example")), (("phone"), ("9876543210"))]

/-- A field whose id exactly equals the email key while its name exactly
equals the phone key. -/
def clashField : FieldDescriptor :=
  ⟨"email", "phone", "", "", "text"⟩

/-- A field whose name exactly equals the phone key and whose label
suggests something else. -/
def phoneNameField : FieldDescriptor :=
  ⟨"", "phone", "Telephone", "", "text"⟩

/-! ## Helper lemmas about the scoring fold -/

theorem scoreFold_ge_base (f : FieldDescriptor) :
    ∀ (sigs : List (String × ℚ)) (base : ℚ), base ≤ scoreFold f base sigs := by
  intro sigs
  induction sigs with
  | nil => intro base; exact le_refl base
  | cons sig rest ih =>
    intro base
    simp only [scoreFold]
    have h1 : base ≤ (if sigMatches f sig then max base sig.2 else base) := by
      split
      · exact le_max_left base sig.2
      · exact le_refl base
    exact le_trans h1 (ih _)

theorem scoreFold_ge_sig (f : FieldDescriptor) :
    ∀ (sigs : List (String × ℚ)) (base : ℚ) (sig : String × ℚ),
      sig ∈ sigs → sigMatches f sig = true → sig.2 ≤ scoreFold f base sigs := by
  intro sigs
  induction sigs with
  | nil => intro base sig h; intro _; cases h
  | cons s0 rest ih =>
    intro base sig hmem hmatch
    simp only [scoreFold]
    rcases List.mem_cons.mp hmem with h | h
    · subst h
      have h2 : sig.2 ≤ (if sigMatches f sig then max base sig.2 else base) := by
        rw [hmatch]
        simp
      exact le_trans h2 (scoreFold_ge_base f rest _)
    · exact ih _ sig h hmatch

theorem scoreFold_le_one (f : FieldDescriptor) :
    ∀ (sigs : List (String × ℚ)) (base : ℚ), base ≤ 1 →
      (∀ sig ∈ sigs, sig.2 ≤ 1) → scoreFold f base sigs ≤ 1 := by
  intro sigs
  induction sigs with
  | nil => intro base hb _; exact hb
  | cons s0 rest ih =>
    intro base hb hs
    simp only [scoreFold]
    apply ih
    · split
      · exact max_le hb (hs s0 (List.mem_cons_self s0 rest))
      · exact hb
    · intro sig h
      exact hs sig (List.mem_cons_of_mem s0 h)

theorem attrScore_le_one (f : FieldDescriptor) (a : ProfileAttribute)
    (h : ∀ sig ∈ a.signatures, sig.2 ≤ 1) : attrScore f a ≤ 1 := by
  unfold attrScore
  apply scoreFold_le_one f a.signatures _ _ h
  split
  · exact le_refl 1
  · exact zero_le_one

theorem attrScore_exact (f : FieldDescriptor) (a : ProfileAttribute)
    (h : exactKeyMatch f a = true) : 1 ≤ attrScore f a := by
  unfold attrScore
  rw [h]
  simpa using scoreFold_ge_base f a.signatures 1

theorem attrScore_ge_sig (f : FieldDescriptor) (a : ProfileAttribute)
    (sig : String × ℚ) (hmem : sig ∈ a.signatures) (hmatch : sigMatches f sig = true) :
    sig.2 ≤ attrScore f a := by
  unfold attrScore
  exact scoreFold_ge_sig f a.signatures _ sig hmem hmatch

/-! ## Helper lemmas about the winning candidate -/

theorem bestCandidate_ne_none (f : FieldDescriptor) (a : ProfileAttribute)
    (rest : List ProfileAttribute) : bestCandidate (a :: rest) f ≠ none := by
  simp only [bestCandidate]
  cases bestCandidate rest f with
  | none => simp
  | some p =>
    obtain ⟨b, s⟩ := p
    by_cases hlt : attrScore f a < s
    · simp [hlt]
    · simp [hlt]

theorem bestCandidate_none_iff (f : FieldDescriptor) (table : List ProfileAttribute) :
    bestCandidate table f = none ↔ table = [] := by
  cases table with
  | nil => simp [bestCandidate]
  | cons a rest =>
    constructor
    · intro h
      exact absurd h (bestCandidate_ne_none f a rest)
    · intro h
      cases h

theorem bestCandidate_spec (f : FieldDescriptor) :
    ∀ (table : List ProfileAttribute) (b : ProfileAttribute) (s : ℚ),
      bestCandidate table f = some (b, s) →
      b ∈ table ∧ s = attrScore f b ∧ (∀ c ∈ table, attrScore f c ≤ s) ∧
      ∃ i : ℕ, table.get? i = some b ∧
        ∀ j : ℕ, j < i → ∀ c, table.get? j = some c → attrScore f c < s := by
  intro table
  induction table with
  | nil => intro b s h; cases h
  | cons a rest ih =>
    intro b s h
    simp only [bestCandidate] at h
    split at h
    · rename_i hr
      simp only [Option.some.injEq, Prod.mk.injEq] at h
      obtain ⟨rfl, rfl⟩ := h
      have hrest : rest = [] := (bestCandidate_none_iff f rest).mp hr
      subst hrest
      refine ⟨List.mem_cons_self _ _, rfl, ?_, 0, rfl, ?_⟩
      · intro c hc
        rcases List.mem_cons.mp hc with rfl | hc
        · exact le_refl _
        · cases hc
      · intro j hj c hcj
        omega
    · rename_i b0 s0 hr
      obtain ⟨hb0, hs0, hmax0, i0, hi0, hfirst0⟩ := ih b0 s0 hr
      by_cases hlt : attrScore f a < s0
      · rw [if_pos hlt] at h
        simp only [Option.some.injEq, Prod.mk.injEq] at h
        obtain ⟨rfl, rfl⟩ := h
        refine ⟨List.mem_cons_of_mem a hb0, hs0, ?_, i0 + 1, ?_, ?_⟩
        · intro c hc
          rcases List.mem_cons.mp hc with rfl | hc
          · exact le_of_lt hlt
          · exact hmax0 c hc
        · simpa using hi0
        · intro j hj c hcj
          cases j with
          | zero =>
            simp only [List.get?_cons_zero, Option.some.injEq] at hcj
            subst hcj
            exact hlt
          | succ j' =>
            have hj' : j' < i0 := by omega
            exact hfirst0 j' hj' c (by simpa using hcj)
      · rw [if_neg hlt] at h
        simp only [Option.some.injEq, Prod.mk.injEq] at h
        obtain ⟨rfl, rfl⟩ := h
        refine ⟨List.mem_cons_self _ _, rfl, ?_, 0, rfl, ?_⟩
        · intro c hc
          rcases List.mem_cons.mp hc with rfl | hc
          · exact le_refl _
          · exact le_trans (hmax0 c hc) (not_lt.mp hlt)
        · intro j hj c hcj
          omega

/-! ## Helper lemmas about the per-field decision -/

theorem decideField_noId (table : List ProfileAttribute) (profile : List (String × String))
    (f : FieldDescriptor) (h : fieldIdentifier f = "") :
    decideField table profile f =
      (⟨fieldIdentifier f, none, 0, "Skipped a field with no usable identifier"⟩, none) := by
  unfold decideField
  rw [if_pos h]

theorem decideField_accept (table : List ProfileAttribute) (profile : List (String × String))
    (f : FieldDescriptor) (a : ProfileAttribute) (s : ℚ) (v : String)
    (hid : fieldIdentifier f ≠ "") (hb : bestCandidate table f = some (a, s))
    (ht : clearsThreshold s = true) (hv : alistLookup profile a.attributeKey = some v) :
    decideField table profile f =
      (⟨fieldIdentifier f, some a.attributeKey, s,
        "Matched " ++ fieldIdentifier f ++ " with " ++ a.attributeKey ++ " via " ++
          tierName s ++ " rule (confidence " ++ confStr s ++ ")"⟩,
       some (fieldIdentifier f, v)) := by
  unfold decideField
  rw [if_neg hid, hb]
  simp only [ht, if_true, hv]

theorem decideField_noValue (table : List ProfileAttribute) (profile : List (String × String))
    (f : FieldDescriptor) (a : ProfileAttribute) (s : ℚ)
    (hid : fieldIdentifier f ≠ "") (hb : bestCandidate table f = some (a, s))
    (ht : clearsThreshold s = true) (hv : alistLookup profile a.attributeKey = none) :
    decideField table profile f =
      (⟨fieldIdentifier f, none, s,
        "Matched attribute " ++ a.attributeKey ++ " for " ++ fieldIdentifier f ++
          " but no profile value available"⟩, none) := by
  unfold decideField
  rw [if_neg hid, hb]
  simp only [ht, if_true, hv]

theorem decideField_lowScore (table : List ProfileAttribute) (profile : List (String × String))
    (f : FieldDescriptor) (a : ProfileAttribute) (s : ℚ)
    (hid : fieldIdentifier f ≠ "") (hb : bestCandidate table f = some (a, s))
    (ht : clearsThreshold s = false) :
    decideField table profile f =
      (⟨fieldIdentifier f, none, s,
        "Skipped " ++ fieldIdentifier f ++ ": no confident match (best score " ++
          confStr s ++ ")"⟩, none) := by
  unfold decideField
  rw [if_neg hid, hb]
  simp only [ht]
  rfl

theorem decideField_emptyTable (table : List ProfileAttribute)
    (profile : List (String × String)) (f : FieldDescriptor)
    (hid : fieldIdentifier f ≠ "") (h : table = []) :
    decideField table profile f =
      (⟨fieldIdentifier f, none, 0,
        "Skipped " ++ fieldIdentifier f ++ ": no attributes configured"⟩, none) := by
  subst h
  unfold decideField
  rw [if_neg hid]
  rfl

theorem decideField_fst_id (table : List ProfileAttribute) (profile : List (String × String))
    (f : FieldDescriptor) :
    (decideField table profile f).1.fieldIdentifier = fieldIdentifier f := by
  by_cases hid : fieldIdentifier f = ""
  · rw [decideField_noId table profile f hid]
  · cases hb : bestCandidate table f with
    | none =>
      rw [decideField_emptyTable table profile f hid ((bestCandidate_none_iff f table).mp hb)]
    | some p =>
      obtain ⟨a, s⟩ := p
      cases ht : clearsThreshold s with
      | false => rw [decideField_lowScore table profile f a s hid hb ht]
      | true =>
        cases hv : alistLookup profile a.attributeKey with
        | none => rw [decideField_noValue table profile f a s hid hb ht hv]
        | some v => rw [decideField_accept table profile f a s v hid hb ht hv]

theorem decideField_snd_some (table : List ProfileAttribute)
    (profile : List (String × String)) (f : FieldDescriptor) (e : String × String)
    (h : (decideField table profile f).2 = some e) :
    fieldIdentifier f ≠ "" ∧ e.1 = fieldIdentifier f ∧
    ∃ a s, bestCandidate table f = some (a, s) ∧ clearsThreshold s = true ∧
      (decideField table profile f).1.confidence = s ∧
      (decideField table profile f).1.matchedAttribute = some a.attributeKey ∧
      alistLookup profile a.attributeKey = some e.2 := by
  by_cases hid : fieldIdentifier f = ""
  · rw [decideField_noId table profile f hid] at h
    cases h
  · cases hb : bestCandidate table f with
    | none =>
      rw [decideField_emptyTable table profile f hid
        ((bestCandidate_none_iff f table).mp hb)] at h
      cases h
    | some p =>
      obtain ⟨a, s⟩ := p
      cases ht : clearsThreshold s with
      | false =>
        rw [decideField_lowScore table profile f a s hid hb ht] at h
        cases h
      | true =>
        cases hv : alistLookup profile a.attributeKey with
        | none =>
          rw [decideField_noValue table profile f a s hid hb ht hv] at h
          cases h
        | some v =>
          rw [decideField_accept table profile f a s v hid hb ht hv] at h
          simp only [Option.some.injEq] at h
          subst h
          refine ⟨hid, rfl, a, s, rfl, ht, ?_, ?_, ?_⟩
          · rw [decideField_accept table profile f a s v hid hb ht hv]
          · rw [decideField_accept table profile f a s v hid hb ht hv]
          · simpa using hv

theorem decideField_snd_none_of_lowScore (table : List ProfileAttribute)
    (profile : List (String × String)) (f : FieldDescriptor)
    (h : clearsThreshold (bestScore table f) = false) :
    (decideField table profile f).2 = none := by
  by_cases hid : fieldIdentifier f = ""
  · rw [decideField_noId table profile f hid]
  · cases hb : bestCandidate table f with
    | none =>
      rw [decideField_emptyTable table profile f hid ((bestCandidate_none_iff f table).mp hb)]
    | some p =>
      obtain ⟨a, s⟩ := p
      have hs : bestScore table f = s := by
        unfold bestScore
        rw [hb]
      rw [hs] at h
      rw [decideField_lowScore table profile f a s hid hb h]

/-! ## Helper lemmas about the engine loop -/

theorem engineStep_fst (st : EngineState) (acc : MappingResult) (f : FieldDescriptor) :
    (engineStep st acc f).1 = st := rfl

theorem engineRun_eq (st : EngineState) :
    ∀ (fields : List FieldDescriptor) (acc : MappingResult),
      engineRun st fields acc =
        (st, ⟨acc.filledFields ++
                fields.filterMap (fun f => (decideField st.table st.profile f).2),
              acc.reasoningLogs ++
                fields.map (fun f => (decideField st.table st.profile f).1.reason)⟩) := by
  intro fields
  induction fields with
  | nil => intro acc; simp [engineRun]
  | cons f rest ih =>
    intro acc
    simp only [engineRun, engineStep_fst]
    rw [ih]
    cases hd : (decideField st.table st.profile f).2 <;>
      simp [engineStep, hd, List.filterMap_cons]

theorem matchFields_ok (table : List ProfileAttribute) (fields : List FieldDescriptor)
    (profile : List (String × String)) (h : table ≠ []) :
    matchFields table fields profile =
      Except.ok ⟨fields.filterMap (fun f => (decideField table profile f).2),
                 fields.map (fun f => (decideField table profile f).1.reason)⟩ := by
  unfold matchFields
  rw [if_neg h, engineRun_eq]
  simp

/-! ## A helper about nonempty strings -/

theorem string_eq_empty_of_length (s : String) (h : s.length = 0) : s = "" := by
  cases s with
  | mk data =>
    have hd : data = [] := List.length_eq_zero.mp h
    rw [hd]

theorem append_ne_empty_left (s t : String) (h : s ≠ "") : s ++ t ≠ "" := by
  intro he
  have hlen : (s ++ t).length = 0 := by rw [he]; rfl
  rw [String.length_append] at hlen
  have hs : s.length = 0 := by omega
  exact h (string_eq_empty_of_length s hs)

/-! ## Claim theorems -/

/-- C9: for the empty sequence of fields, a configured engine (non-empty
signature table) returns an empty MappingResult, with empty filledFields
and empty reasoningLogs, and does not raise an error. -/
theorem c9_empty_fields (table : List ProfileAttribute) (profile : List (String × String))
    (h : table ≠ []) :
    matchFields table [] profile = Except.ok ⟨[], []⟩ := by
  rw [matchFields_ok table [] profile h]
  rfl

/-- Witness for C9 at a concrete one-attribute table. -/
theorem c9_empty_fields_witness :
    matchFields phoneTable [] phoneProfile = Except.ok ⟨[], []⟩ :=
  c9_empty_fields phoneTable phoneProfile (by decide)

/-- C7: the engine has no side effects beyond producing its result: one
engine step hands back the state (signature table and profile) it was given,
so the table is never mutated per-field, and a whole engine run leaves the
state equal to the initial one; inputs are taken and returned by value. -/
theorem c7_no_mutation (st : EngineState) (fields : List FieldDescriptor)
    (acc : MappingResult) (f : FieldDescriptor) :
    (engineStep st acc f).1 = st ∧
    (engineRun st fields acc).1 = st ∧
    (engineRun st fields acc).1.table = st.table ∧
    (engineRun st fields acc).1.profile = st.profile := by
  have h : (engineRun st fields acc).1 = st := by
    rw [engineRun_eq]
  exact ⟨rfl, h, by rw [h], by rw [h]⟩

/-- C1 counterexample: with a non-empty table, a single field lacking any
usable identifier still produces one reasoning-log entry, so the length of
reasoningLogs (here 1) differs from the number of fields with a non-empty
identifier (here 0), contradicting the claim as stated. -/
theorem c1_counterexample :
    matchFields phoneTable [noIdField] phoneProfile =
      Except.ok ⟨[], [("Skipped a field with no usable identifier")]⟩ ∧
    ¬ ([("Skipped a field with no usable identifier")].length =
        ([noIdField].filter (fun f => fieldIdentifier f ≠ "")).length) := by
  exact ⟨rfl, by decide⟩

/-- C1 (amended): every input field, whether or not its identifier is
non-empty, yields exactly one MatchDecision and exactly one reasoningLogs
entry, in the same order the fields were supplied; hence every field with a
non-empty identifier yields exactly one entry, and the length of
reasoningLogs equals the total number of supplied fields. -/
theorem c1_one_log_per_field (table : List ProfileAttribute)
    (fields : List FieldDescriptor) (profile : List (String × String))
    (h : table ≠ []) :
    ∃ r, matchFields table fields profile = Except.ok r ∧
      r.reasoningLogs = (decisions table profile fields).map MatchDecision.reason ∧
      (decisions table profile fields).length = fields.length ∧
      (decisions table profile fields).map MatchDecision.fieldIdentifier =
        fields.map fieldIdentifier := by
  refine ⟨_, matchFields_ok table fields profile h, ?_, ?_, ?_⟩
  · simp [decisions, List.map_map]
  · simp [decisions]
  · simp only [decisions, List.map_map]
    apply List.map_congr_left
    intro f _
    exact decideField_fst_id table profile f

/-- Witness for C1 (amended) at a concrete table and two concrete fields. -/
theorem c1_one_log_per_field_witness :
    ∃ r, matchFields phoneTable [scenField, noIdField] phoneProfile = Except.ok r ∧
      r.reasoningLogs =
        (decisions phoneTable phoneProfile [scenField, noIdField]).map MatchDecision.reason ∧
      (decisions phoneTable phoneProfile [scenField, noIdField]).length =
        [scenField, noIdField].length ∧
      (decisions phoneTable phoneProfile [scenField, noIdField]).map
          MatchDecision.fieldIdentifier =
        [scenField, noIdField].map fieldIdentifier :=
  c1_one_log_per_field phoneTable [scenField, noIdField] phoneProfile (by decide)

/-! ## Bridge lemmas for the tier constants -/

theorem ratHalf_eq : ratHalf = 1/2 := by
  unfold ratHalf
  rw [Rat.mk'_eq_divInt, Rat.divInt_eq_div]
  norm_num

theorem ratSynonym_eq : ratSynonym = 8/10 := by
  unfold ratSynonym
  rw [Rat.mk'_eq_divInt, Rat.divInt_eq_div]
  norm_num

theorem ratShort_eq : ratShort = 6/10 := by
  unfold ratShort
  rw [Rat.mk'_eq_divInt, Rat.divInt_eq_div]
  norm_num

theorem clearsThreshold_iff (s : ℚ) : clearsThreshold s = true ↔ 1/2 ≤ s := by
  simp only [clearsThreshold, decide_eq_true_eq]
  rw [ratHalf_eq]

/-- C2: the acceptance comparison against the 0.5 threshold is non-strict
(a best candidate scoring exactly 0.5 clears it); a field whose best score
reaches the threshold and whose matched attribute has a profile value is
filled; a field whose best score fails the threshold contributes nothing to
filledFields; and every entry of filledFields comes from a field whose
decision has a matched attribute and confidence at least 0.5. -/
theorem c2_threshold (table : List ProfileAttribute) (fields : List FieldDescriptor)
    (profile : List (String × String)) (r : MappingResult)
    (hr : matchFields table fields profile = Except.ok r) :
    (∀ s : ℚ, clearsThreshold s = true ↔ 1/2 ≤ s) ∧
    clearsThreshold (1/2) = true ∧
    (∀ f a s v, fieldIdentifier f ≠ "" → bestCandidate table f = some (a, s) →
      1/2 ≤ s → alistLookup profile a.attributeKey = some v →
      (decideField table profile f).2 = some (fieldIdentifier f, v)) ∧
    (∀ f, clearsThreshold (bestScore table f) = false →
      (decideField table profile f).2 = none) ∧
    (∀ e ∈ r.filledFields, ∃ f ∈ fields,
      (decideField table profile f).2 = some e ∧
      1/2 ≤ (decideField table profile f).1.confidence ∧
      (decideField table profile f).1.matchedAttribute ≠ none) := by
  refine ⟨clearsThreshold_iff, ?_, ?_, ?_, ?_⟩
  · rw [clearsThreshold_iff]
  · intro f a s v hid hb hs hv
    have ht : clearsThreshold s = true := (clearsThreshold_iff s).mpr hs
    rw [decideField_accept table profile f a s v hid hb ht hv]
  · intro f h
    exact decideField_snd_none_of_lowScore table profile f h
  · intro e he
    have htab : table ≠ [] := by
      intro h0
      rw [h0] at hr
      simp [matchFields] at hr
    rw [matchFields_ok table fields profile htab] at hr
    simp only [Except.ok.injEq] at hr
    subst hr
    simp only [List.mem_filterMap] at he
    obtain ⟨f, hf, hdf⟩ := he
    obtain ⟨-, -, a, s, -, ht, hconf, hattr, -⟩ :=
      decideField_snd_some table profile f e hdf
    refine ⟨f, hf, hdf, ?_, ?_⟩
    · rw [hconf]
      exact (clearsThreshold_iff s).mp ht
    · rw [hattr]
      simp

/-- Witness for C2 at a concrete run in which one field is filled. -/
theorem c2_threshold_witness : clearsThreshold (1/2) = true :=
  (c2_threshold phoneTable [scenField] phoneProfile
    ⟨[(("contact_num"), ("9876543210"))],
     [("Matched contact_num with phone via synonym rule (confidence 0.8)")]⟩
    (by decide)).2.1

/-- C6: the operation fails, with a configuration error, exactly when the
signature table is empty; with a configured table it always succeeds, and
every per-field problem, namely a missing usable identifier, a best
candidate below the threshold, or a matched attribute with no profile
value, is recorded as a skip (no filled entry) with a non-empty reason
string present in the reasoning log; empty-string defaults for the optional
text attributes of a field never make the operation fail. -/
theorem c6_errors (table : List ProfileAttribute) (fields : List FieldDescriptor)
    (profile : List (String × String)) :
    (matchFields table fields profile = Except.error MatchError.configurationError ↔
      table = []) ∧
    (table ≠ [] → ∃ r, matchFields table fields profile = Except.ok r ∧
      ∀ f ∈ fields,
        (fieldIdentifier f = "" ∨ clearsThreshold (bestScore table f) = false ∨
          (∀ a s, bestCandidate table f = some (a, s) →
            alistLookup profile a.attributeKey = none)) →
        (decideField table profile f).2 = none ∧
        (decideField table profile f).1.reason ≠ "" ∧
        (decideField table profile f).1.reason ∈ r.reasoningLogs) := by
  constructor
  · constructor
    · intro h
      by_contra hne
      rw [matchFields_ok table fields profile hne] at h
      cases h
    · intro h
      subst h
      rfl
  · intro hne
    refine ⟨_, matchFields_ok table fields profile hne, ?_⟩
    intro f hf hproblem
    have hmem : (decideField table profile f).1.reason ∈
        fields.map (fun g => (decideField table profile g).1.reason) :=
      List.mem_map_of_mem (fun g => (decideField table profile g).1.reason) hf
    have hkey : (decideField table profile f).2 = none ∧
        (decideField table profile f).1.reason ≠ "" := by
      by_cases hid : fieldIdentifier f = ""
      · rw [decideField_noId table profile f hid]
        refine ⟨rfl, ?_⟩
        show ("Skipped a field with no usable identifier") ≠ ("")
        decide
      · cases hb : bestCandidate table f with
        | none => exact absurd ((bestCandidate_none_iff f table).mp hb) hne
        | some p =>
          obtain ⟨a, s⟩ := p
          have hbs : bestScore table f = s := by
            unfold bestScore
            rw [hb]
          cases ht : clearsThreshold s with
          | false =>
            rw [decideField_lowScore table profile f a s hid hb ht]
            refine ⟨rfl, ?_⟩
            exact append_ne_empty_left _ _ (append_ne_empty_left _ _
              (append_ne_empty_left _ _ (append_ne_empty_left _ _ (by decide))))
          | true =>
            have hv : alistLookup profile a.attributeKey = none := by
              rcases hproblem with h1 | h2 | h3
              · exact absurd h1 hid
              · rw [hbs, ht] at h2
                simp at h2
              · exact h3 a s hb
            rw [decideField_noValue table profile f a s hid hb ht hv]
            refine ⟨rfl, ?_⟩
            exact append_ne_empty_left _ _ (append_ne_empty_left _ _
              (append_ne_empty_left _ _ (append_ne_empty_left _ _ (by decide))))
    exact ⟨hkey.1, hkey.2, hmem⟩

/-- Witness for C6: the engine fails on the empty table. -/
theorem c6_errors_witness :
    matchFields ([] : List ProfileAttribute) [scenField] phoneProfile =
      Except.error MatchError.configurationError :=
  (c6_errors [] [scenField] phoneProfile).1.mpr rfl

/-- C5: match is deterministic, identical inputs giving identical results,
and ties between attributes achieving the same maximum score are broken by
selecting the attribute appearing earliest in the fixed table order: the
winning candidate is a table member achieving the maximum score, and every
attribute strictly earlier in the table scores strictly below that
maximum. -/
theorem c5_deterministic (table : List ProfileAttribute) (fields : List FieldDescriptor)
    (profile : List (String × String)) (f : FieldDescriptor)
    (b : ProfileAttribute) (s : ℚ) (h : bestCandidate table f = some (b, s)) :
    matchFields table fields profile = matchFields table fields profile ∧
    b ∈ table ∧ s = attrScore f b ∧ (∀ c ∈ table, attrScore f c ≤ s) ∧
    ∃ i : ℕ, table.get? i = some b ∧
      ∀ j : ℕ, j < i → ∀ c, table.get? j = some c → attrScore f c < s := by
  obtain ⟨h1, h2, h3, h4⟩ := bestCandidate_spec f table b s h
  exact ⟨rfl, h1, h2, h3, h4⟩

/-- Witness for C5: at a field tying two attributes at score 1.0, the
earlier attribute is the winning candidate. -/
theorem c5_deterministic_witness :
    (⟨("email"), []⟩ : ProfileAttribute) ∈ emailPhoneTable :=
  (c5_deterministic emailPhoneTable [clashField] emailPhoneProfile clashField
    ⟨("email"), []⟩ 1 (by decide)).2.1

theorem normalizeText_empty : normalizeText ("") = "" := by decide

/-- C3 counterexample: the field clashField has name phone, equal after
normalization to the canonical key of the phone attribute of
emailPhoneTable, yet the engine resolves the field to the email attribute,
whose key exactly matches the field identifier and which appears earlier
in the priority order, not to phone; so an exact-key match on the name
does not dominate regardless of the remaining field text. -/
theorem c3_counterexample :
    normalizeText clashField.name = ("phone") ∧
    (⟨("phone"), []⟩ : ProfileAttribute) ∈ emailPhoneTable ∧
    (decideField emailPhoneTable emailPhoneProfile clashField).1.matchedAttribute =
      some ("email") ∧
    ¬ (decideField emailPhoneTable emailPhoneProfile clashField).1.matchedAttribute =
      some ("phone") := by
  exact ⟨by decide, by decide, by decide, by decide⟩

/-- C3 (amended): for a table whose signature weights are bounded by the
tier maximum 1, a field whose normalized name equals the canonical key of
a table attribute scores 1.0 for that attribute, and provided no other
table attribute also reaches score 1.0 (as the identifier or an exact
alias could) and the profile carries a value for the key, the engine
resolves the field to that attribute with confidence 1.0 regardless of
the label text, whose keyword candidates score at most 1. -/
theorem c3_exact_name_dominates (table : List ProfileAttribute)
    (profile : List (String × String)) (f : FieldDescriptor) (a : ProfileAttribute)
    (v : String) (ha : a ∈ table) (hname : normalizeText f.name = a.attributeKey)
    (hkey : a.attributeKey ≠ "")
    (hvalid : ∀ b ∈ table, ∀ sig ∈ b.signatures, sig.2 ≤ 1)
    (huniq : ∀ b ∈ table, attrScore f b = 1 → b.attributeKey = a.attributeKey)
    (hv : alistLookup profile a.attributeKey = some v) :
    attrScore f a = 1 ∧
    (decideField table profile f).1.matchedAttribute = some a.attributeKey ∧
    (decideField table profile f).1.confidence = 1 ∧
    (decideField table profile f).2 = some (fieldIdentifier f, v) := by
  have hexact : exactKeyMatch f a = true := by
    unfold exactKeyMatch
    simp [hname]
  have hsa : attrScore f a = 1 :=
    le_antisymm (attrScore_le_one f a (hvalid a ha)) (attrScore_exact f a hexact)
  have hname_ne : f.name ≠ "" := by
    intro h0
    rw [h0, normalizeText_empty] at hname
    exact hkey hname.symm
  have hid : fieldIdentifier f ≠ "" := by
    unfold fieldIdentifier
    split
    · exact hname_ne
    · assumption
  cases hb : bestCandidate table f with
  | none =>
    exfalso
    have h0 : table = [] := (bestCandidate_none_iff f table).mp hb
    rw [h0] at ha
    cases ha
  | some p =>
    obtain ⟨b, s⟩ := p
    obtain ⟨hbmem, hbs, hmax, -⟩ := bestCandidate_spec f table b s hb
    have hs1 : s = 1 := by
      have hle : 1 ≤ s := by
        rw [← hsa]
        exact hmax a ha
      have hge : s ≤ 1 := by
        rw [hbs]
        exact attrScore_le_one f b (hvalid b hbmem)
      exact le_antisymm hge hle
    subst hs1
    have hbkey : b.attributeKey = a.attributeKey := by
      apply huniq b hbmem
      rw [← hbs]
    have ht : clearsThreshold 1 = true := by decide
    have hv2 : alistLookup profile b.attributeKey = some v := by
      rw [hbkey]
      exact hv
    rw [decideField_accept table profile f b 1 v hid hb ht hv2]
    refine ⟨hsa, ?_, rfl, rfl⟩
    rw [hbkey]

/-- Witness for C3 (amended) at a one-attribute table and a field whose
name is exactly the canonical key. -/
theorem c3_exact_name_dominates_witness :
    (decideField phoneTable phoneProfile phoneNameField).1.confidence = 1 :=
  (c3_exact_name_dominates phoneTable phoneProfile phoneNameField
    ⟨("phone"), [(("mobile"), ratSynonym)]⟩ ("9876543210")
    (by decide) (by decide) (by decide) (by decide) (by decide) (by decide)).2.2.1

/-- C4: a synonym keyword of at least 7 characters contributes weight 0.8
and a shorter one 0.6 to the score of an attribute built from keyword
lists, the score being at least the keyword tier weight whenever the
keyword occurs in the normalized search text; and the spec scenario
holds: the field contact_num with placeholder Mobile, against the phone
attribute carrying synonym keyword mobile at weight 0.8, is filled with
the profile phone value at confidence 0.8 with a reason mentioning the
synonym rule. -/
theorem c4_synonym_scenario (f : FieldDescriptor) (key : String)
    (aliases synonyms : List String) (kw : String)
    (hkw : kw ∈ synonyms) (hsub : strContains (normSearchText f) kw = true) :
    keywordWeight kw = (if 7 ≤ kw.length then 8/10 else 6/10) ∧
    keywordWeight kw ≤ attrScore f (mkAttribute key aliases synonyms) ∧
    matchFields phoneTable [scenField] phoneProfile =
      Except.ok ⟨[(("contact_num"), ("9876543210"))],
        [("Matched contact_num with phone via synonym rule (confidence 0.8)")]⟩ ∧
    (decideField phoneTable phoneProfile scenField).1.confidence = 8/10 ∧
    strContains ((decideField phoneTable phoneProfile scenField).1.reason)
      ("synonym") = true := by
  refine ⟨?_, ?_, by decide, ?_, by decide⟩
  · unfold keywordWeight
    split
    · exact ratSynonym_eq
    · exact ratShort_eq
  · apply attrScore_ge_sig f (mkAttribute key aliases synonyms) (kw, keywordWeight kw)
    · show (kw, keywordWeight kw) ∈ (mkAttribute key aliases synonyms).signatures
      unfold mkAttribute
      exact List.mem_append_right _ (List.mem_map.mpr ⟨kw, hkw, rfl⟩)
    · unfold sigMatches
      have hne : ¬ ((kw, keywordWeight kw).2 = 1) := by
        show ¬ (keywordWeight kw = 1)
        unfold keywordWeight
        split
        · rw [ratSynonym_eq]
          norm_num
        · rw [ratShort_eq]
          norm_num
      rw [if_neg hne]
      exact hsub
  · have hc : (decideField phoneTable phoneProfile scenField).1.confidence = ratSynonym := by
      decide
    rw [hc, ratSynonym_eq]

/-- Witness for C4 at the scenario field and the keyword mobile. -/
theorem c4_synonym_scenario_witness :
    (decideField phoneTable phoneProfile scenField).1.confidence = 8/10 :=
  (c4_synonym_scenario scenField ("phone") [] [("mobile")] ("mobile")
    (by decide) (by decide)).2.2.2.1

/-- C8: every key of filled_fields equals the identifier of an input
field, the DOM id if present else the name; and the fill step of the
current content script looks a mapping value up by the id key first,
keeping a truthy (non-empty) hit, and falls back to the name key when the
id key is absent. -/
theorem c8_response_keys (table : List ProfileAttribute) (fields : List FieldDescriptor)
    (profile : List (String × String)) (r : MappingResult)
    (hr : matchFields table fields profile = Except.ok r) :
    (∀ e ∈ r.filledFields, ∃ f ∈ fields, e.1 = fieldIdentifier f ∧
      fieldIdentifier f = (if f.id = "" then f.name else f.id)) ∧
    (∀ mapping i nm v, alistLookup mapping i = some v → v ≠ "" →
      handleAutoFillValue mapping i nm = some v) ∧
    (∀ mapping i nm, alistLookup mapping i = none →
      handleAutoFillValue mapping i nm = alistLookup mapping nm) := by
  refine ⟨?_, ?_, ?_⟩
  · intro e he
    have htab : table ≠ [] := by
      intro h0
      rw [h0] at hr
      simp [matchFields] at hr
    rw [matchFields_ok table fields profile htab] at hr
    simp only [Except.ok.injEq] at hr
    subst hr
    simp only [List.mem_filterMap] at he
    obtain ⟨f, hf, hdf⟩ := he
    obtain ⟨-, he1, -⟩ := decideField_snd_some table profile f e hdf
    exact ⟨f, hf, he1, rfl⟩
  · intro mapping i nm v hv hne
    simp only [handleAutoFillValue, jsOr, hv]
    rw [if_neg hne]
  · intro mapping i nm h
    simp only [handleAutoFillValue, jsOr, h]

/-- Witness for C8: a concrete lookup through the content-script fill
step keeps the truthy id hit. -/
theorem c8_response_keys_witness :
    handleAutoFillValue [(("a"), ("1"))] ("a") ("b") = some ("1") :=
  ((c8_response_keys phoneTable [scenField] phoneProfile
    ⟨[(("contact_num"), ("9876543210"))],
     [("Matched contact_num with phone via synonym rule (confidence 0.8)")]⟩
    (by decide)).2.1) [(("a"), ("1"))] ("a") ("b") ("1") (by decide) (by decide)

/-- C10: in the earlier content-script variant, each input is looked up in
filled_fields under the single key id-or-name (the id when non-empty, else
the name) with no fallback between the two keys, and the value is assigned
only when truthy: with a non-empty id the result ignores the name key
entirely and is empty when the id key is absent, a mapped empty string
never fills, and any assigned value is the non-empty value stored under
the single key. -/
theorem c10_old_fill (mapping : List (String × String)) (i nm v : String) :
    (i ≠ "" → ∀ nm2, oldHandleAutoFillValue mapping i nm =
      oldHandleAutoFillValue mapping i nm2) ∧
    (i ≠ "" → alistLookup mapping i = none →
      oldHandleAutoFillValue mapping i nm = none) ∧
    (alistLookup mapping (if i = "" then nm else i) = some ("") →
      oldHandleAutoFillValue mapping i nm = none) ∧
    (oldHandleAutoFillValue mapping i nm = some v →
      v ≠ "" ∧ alistLookup mapping (if i = "" then nm else i) = some v) := by
  refine ⟨?_, ?_, ?_, ?_⟩
  · intro hi nm2
    unfold oldHandleAutoFillValue
    rw [if_neg hi, if_neg hi]
  · intro hi h
    unfold oldHandleAutoFillValue
    rw [if_neg hi, h]
  · intro h
    unfold oldHandleAutoFillValue
    rw [h]
    simp
  · intro h
    unfold oldHandleAutoFillValue at h
    split at h
    · rename_i w hw
      split at h
      · cases h
      · rename_i hne
        simp only [Option.some.injEq] at h
        subst h
        exact ⟨hne, hw⟩
    · cases h

/-- Witness for C10: with a non-empty id whose key is absent from the
mapping, a value stored under the name key is ignored and nothing is
filled. -/
theorem c10_old_fill_witness :
    oldHandleAutoFillValue [(("x"), ("7"))] ("a") ("x") = none :=
  ((c10_old_fill [(("x"), ("7"))] ("a") ("x") ("7")).2.1) (by decide) (by decide)
